import Mathlib

/-! Formal model of the data-analyst-bootcamp repository.

The JavaScript sources are shallowly embedded: JS numbers are modelled as
rationals (ℚ) or integers (ℤ), `Math.random()` draws are injected explicitly
as rationals in the unit interval, and fallible operations return `Except` or
`Option`.  The sections below follow the source files: the seed-data
generator, the pattern-verification reporter, the CSV export endpoint, the
chat handler and the database helper module. -/

/-- One entry of the seed script's `PILLAR_CONFIG` object: the pillar's
maximum score and its weakness threshold. -/
structure PillarCfg where
  max : ℤ
  weakThreshold : ℤ
deriving DecidableEq

/-- The six fixed pillars of `PILLAR_CONFIG`, as named fields. -/
structure PillarConfigs where
  numeracy : PillarCfg
  reading : PillarCfg
  computer : PillarCfg
  logic : PillarCfg
  communication : PillarCfg
  mindset : PillarCfg
deriving DecidableEq

/-- Embeds the seed script's `PILLAR_CONFIG` constant. -/
def PILLAR_CONFIG : PillarConfigs :=
  { numeracy := ⟨10, 4⟩
    reading := ⟨5, 2⟩
    computer := ⟨10, 4⟩
    logic := ⟨8, 3⟩
    communication := ⟨5, 2⟩
    mindset := ⟨7, 3⟩ }

/-- One entry of the seed script's `READINESS_DISTRIBUTION` array. -/
structure TierCfg where
  level : ℤ
  title : String
  probability : ℚ
deriving DecidableEq

/-- Embeds the seed script's `READINESS_DISTRIBUTION` constant. -/
def READINESS_DISTRIBUTION : List TierCfg :=
  [⟨1, "Ready to Start", 15/100⟩,
   ⟨2, "Ready with Quick Prep", 40/100⟩,
   ⟨3, "Need Foundation Work", 25/100⟩,
   ⟨4, "Need Comprehensive Prep", 15/100⟩,
   ⟨5, "Not Yet Ready", 5/100⟩]

/-- The fields of the seed script's `WEAKNESS_TARGETS` object. -/
structure WeaknessTargets where
  reading : ℚ
  communication : ℚ
  logic : ℚ
  numeracy : ℚ
  computer : ℚ
  mindset : ℚ
deriving DecidableEq

/-- Embeds the seed script's `WEAKNESS_TARGETS` constant. -/
def WEAKNESS_TARGETS : WeaknessTargets :=
  { reading := 68/100
    communication := 62/100
    logic := 45/100
    numeracy := 30/100
    computer := 25/100
    mindset := 20/100 }

/-- Embeds `randomInt(min, max)` from the seed script:
`Math.floor(Math.random() * (max - min + 1)) + min`, with the
`Math.random()` draw `r` injected as an explicit parameter. -/
def randomInt (min max : ℤ) (r : ℚ) : ℤ :=
  ⌊r * ((max - min + 1 : ℤ) : ℚ)⌋ + min

/-- A draw of `Math.random()` lies in the half-open unit interval. -/
def UnitDraw (r : ℚ) : Prop := 0 ≤ r ∧ r < 1

instance (r : ℚ) : Decidable (UnitDraw r) := by
  unfold UnitDraw; infer_instance

/-- For a unit draw, `randomInt min max` lies in `[min, max]` inclusive,
exactly as the source comment documents. -/
theorem randomInt_mem (min max : ℤ) (r : ℚ) (h : UnitDraw r) (hle : min ≤ max) :
    min ≤ randomInt min max r ∧ randomInt min max r ≤ max := by
  obtain ⟨h0, h1⟩ := h
  have hk : (0 : ℚ) < ((max - min + 1 : ℤ) : ℚ) := by
    have : (0 : ℤ) < max - min + 1 := by omega
    exact_mod_cast this
  have hnn : (0 : ℚ) ≤ r * ((max - min + 1 : ℤ) : ℚ) :=
    mul_nonneg h0 (le_of_lt hk)
  have hlt : r * ((max - min + 1 : ℤ) : ℚ) < ((max - min + 1 : ℤ) : ℚ) :=
    mul_lt_of_lt_one_left hk h1
  have hfl : (0 : ℤ) ≤ ⌊r * ((max - min + 1 : ℤ) : ℚ)⌋ := Int.floor_nonneg.mpr hnn
  have hfu : ⌊r * ((max - min + 1 : ℤ) : ℚ)⌋ < max - min + 1 := Int.floor_lt.mpr hlt
  unfold randomInt
  omega

/-- The `{level, title}` object returned by `selectReadinessLevel`. -/
structure TierChoice where
  level : ℤ
  title : String
deriving DecidableEq

/-- The cumulative-probability loop inside `selectReadinessLevel`: walk the
tier list accumulating probabilities and return the first tier whose
cumulative probability is at or above the draw. -/
def selectLoop (rand : ℚ) : List TierCfg → ℚ → Option TierChoice
  | [], _ => none
  | config :: rest, cumulative =>
    let cumulative := cumulative + config.probability
    if rand ≤ cumulative then some ⟨config.level, config.title⟩
    else selectLoop rand rest cumulative

/-- Embeds `selectReadinessLevel()` from the seed script, with the
`Math.random()` draw injected.  When the loop falls through, the source
returns the last element of `READINESS_DISTRIBUTION`. -/
def selectReadinessLevel (rand : ℚ) : TierChoice :=
  match selectLoop rand READINESS_DISTRIBUTION 0 with
  | some choice => choice
  | none =>
    let config := READINESS_DISTRIBUTION.getLast (by simp [READINESS_DISTRIBUTION])
    ⟨config.level, config.title⟩

/-- The six pillar scores of one generated record. -/
structure Scores where
  numeracy : ℤ
  reading : ℤ
  computer : ℤ
  logic : ℤ
  communication : ℤ
  mindset : ℤ
deriving DecidableEq

/-- The six `randomInt` draws of the base-score step of
`generateBaseScores`, one `Math.random()` value per pillar. -/
structure ScoreDraws where
  numeracy : ℚ
  reading : ℚ
  computer : ℚ
  logic : ℚ
  communication : ℚ
  mindset : ℚ

/-- The fresh `randomInt` draws of the tier-adjustment step of
`generateBaseScores`; only the draws of the branch actually taken are used. -/
structure AdjustDraws where
  numeracy : ℚ
  reading : ℚ
  computer : ℚ
  logic : ℚ
  communication : ℚ
  mindset : ℚ

/-- All six draws lie in the unit interval. -/
def ScoreDraws.Valid (d : ScoreDraws) : Prop :=
  UnitDraw d.numeracy ∧ UnitDraw d.reading ∧ UnitDraw d.computer ∧
  UnitDraw d.logic ∧ UnitDraw d.communication ∧ UnitDraw d.mindset

/-- All six draws lie in the unit interval. -/
def AdjustDraws.Valid (a : AdjustDraws) : Prop :=
  UnitDraw a.numeracy ∧ UnitDraw a.reading ∧ UnitDraw a.computer ∧
  UnitDraw a.logic ∧ UnitDraw a.communication ∧ UnitDraw a.mindset

instance (d : ScoreDraws) : Decidable d.Valid := by
  unfold ScoreDraws.Valid; infer_instance

instance (a : AdjustDraws) : Decidable a.Valid := by
  unfold AdjustDraws.Valid; infer_instance

/-- The `if (readinessLevel === ...)` adjustment chain of
`generateBaseScores` (source lines 103-130), acting on the already-drawn
base scores. -/
def adjustForLevel (readinessLevel : ℤ) (scores : Scores) (a : AdjustDraws) :
    Scores :=
  if readinessLevel = 1 then
    { numeracy := max scores.numeracy (randomInt 7 10 a.numeracy)
      reading := max scores.reading (randomInt 4 5 a.reading)
      computer := max scores.computer (randomInt 7 10 a.computer)
      logic := max scores.logic (randomInt 6 8 a.logic)
      communication := max scores.communication (randomInt 4 5 a.communication)
      mindset := max scores.mindset (randomInt 5 7 a.mindset) }
  else if readinessLevel = 2 then
    { scores with
      numeracy := max scores.numeracy (randomInt 5 8 a.numeracy)
      computer := max scores.computer (randomInt 5 8 a.computer)
      mindset := max scores.mindset (randomInt 4 6 a.mindset) }
  else if readinessLevel = 4 then
    { scores with
      numeracy := min scores.numeracy (randomInt 3 6 a.numeracy)
      reading := min scores.reading (randomInt 1 3 a.reading)
      logic := min scores.logic (randomInt 2 4 a.logic)
      communication := min scores.communication (randomInt 1 3 a.communication) }
  else if readinessLevel = 5 then
    { numeracy := min scores.numeracy (randomInt 1 4 a.numeracy)
      reading := min scores.reading (randomInt 0 2 a.reading)
      computer := min scores.computer (randomInt 1 4 a.computer)
      logic := min scores.logic (randomInt 1 3 a.logic)
      communication := min scores.communication (randomInt 0 2 a.communication)
      mindset := min scores.mindset (randomInt 1 3 a.mindset) }
  else scores

/-- Embeds `generateBaseScores(readinessLevel)` from the seed script: the
per-pillar base draws followed by the readiness-level adjustment chain. -/
def generateBaseScores (readinessLevel : ℤ) (d : ScoreDraws) (a : AdjustDraws) :
    Scores :=
  let scores : Scores :=
    { numeracy := randomInt 2 PILLAR_CONFIG.numeracy.max d.numeracy
      reading := randomInt 1 PILLAR_CONFIG.reading.max d.reading
      computer := randomInt 2 PILLAR_CONFIG.computer.max d.computer
      logic := randomInt 2 PILLAR_CONFIG.logic.max d.logic
      communication := randomInt 1 PILLAR_CONFIG.communication.max d.communication
      mindset := randomInt 2 PILLAR_CONFIG.mindset.max d.mindset }
  adjustForLevel readinessLevel scores a

/-- The six `Math.random()` draws of `enforcePatterns`, one per pillar, in
the order the source draws them. -/
structure WeaknessDraws where
  reading : ℚ
  communication : ℚ
  logic : ℚ
  numeracy : ℚ
  computer : ℚ
  mindset : ℚ

/-- Embeds `enforcePatterns(scores)` from the seed script: independently per
pillar, when the draw falls below the pillar's weakness target, clamp the
score down to at most the pillar's weakness threshold. -/
def enforcePatterns (scores : Scores) (w : WeaknessDraws) : Scores :=
  let scores :=
    if w.reading < WEAKNESS_TARGETS.reading then
      { scores with reading := min scores.reading PILLAR_CONFIG.reading.weakThreshold }
    else scores
  let scores :=
    if w.communication < WEAKNESS_TARGETS.communication then
      { scores with communication := min scores.communication PILLAR_CONFIG.communication.weakThreshold }
    else scores
  let scores :=
    if w.logic < WEAKNESS_TARGETS.logic then
      { scores with logic := min scores.logic PILLAR_CONFIG.logic.weakThreshold }
    else scores
  let scores :=
    if w.numeracy < WEAKNESS_TARGETS.numeracy then
      { scores with numeracy := min scores.numeracy PILLAR_CONFIG.numeracy.weakThreshold }
    else scores
  let scores :=
    if w.computer < WEAKNESS_TARGETS.computer then
      { scores with computer := min scores.computer PILLAR_CONFIG.computer.weakThreshold }
    else scores
  let scores :=
    if w.mindset < WEAKNESS_TARGETS.mindset then
      { scores with mindset := min scores.mindset PILLAR_CONFIG.mindset.weakThreshold }
    else scores
  scores

/-- The per-record score pipeline of `seedDatabase` (source lines 212-214):
select a readiness level, draw base scores, then enforce the weakness
patterns. -/
def seedRecordScores (readinessLevel : ℤ) (d : ScoreDraws) (a : AdjustDraws)
    (w : WeaknessDraws) : Scores :=
  enforcePatterns (generateBaseScores readinessLevel d a) w

/-- Field characterization of `enforcePatterns` on `reading`. -/
theorem enforcePatterns_reading (s : Scores) (w : WeaknessDraws) :
    (enforcePatterns s w).reading =
      if w.reading < WEAKNESS_TARGETS.reading then
        min s.reading PILLAR_CONFIG.reading.weakThreshold
      else s.reading := by
  unfold enforcePatterns
  split_ifs <;> rfl

/-- Field characterization of `enforcePatterns` on `communication`. -/
theorem enforcePatterns_communication (s : Scores) (w : WeaknessDraws) :
    (enforcePatterns s w).communication =
      if w.communication < WEAKNESS_TARGETS.communication then
        min s.communication PILLAR_CONFIG.communication.weakThreshold
      else s.communication := by
  unfold enforcePatterns
  split_ifs <;> rfl

/-- Field characterization of `enforcePatterns` on `logic`. -/
theorem enforcePatterns_logic (s : Scores) (w : WeaknessDraws) :
    (enforcePatterns s w).logic =
      if w.logic < WEAKNESS_TARGETS.logic then
        min s.logic PILLAR_CONFIG.logic.weakThreshold
      else s.logic := by
  unfold enforcePatterns
  split_ifs <;> rfl

/-- Field characterization of `enforcePatterns` on `numeracy`. -/
theorem enforcePatterns_numeracy (s : Scores) (w : WeaknessDraws) :
    (enforcePatterns s w).numeracy =
      if w.numeracy < WEAKNESS_TARGETS.numeracy then
        min s.numeracy PILLAR_CONFIG.numeracy.weakThreshold
      else s.numeracy := by
  unfold enforcePatterns
  split_ifs <;> rfl

/-- Field characterization of `enforcePatterns` on `computer`. -/
theorem enforcePatterns_computer (s : Scores) (w : WeaknessDraws) :
    (enforcePatterns s w).computer =
      if w.computer < WEAKNESS_TARGETS.computer then
        min s.computer PILLAR_CONFIG.computer.weakThreshold
      else s.computer := by
  unfold enforcePatterns
  split_ifs <;> rfl

/-- Field characterization of `enforcePatterns` on `mindset`. -/
theorem enforcePatterns_mindset (s : Scores) (w : WeaknessDraws) :
    (enforcePatterns s w).mindset =
      if w.mindset < WEAKNESS_TARGETS.mindset then
        min s.mindset PILLAR_CONFIG.mindset.weakThreshold
      else s.mindset := by
  unfold enforcePatterns
  split_ifs <;> rfl

/-- Pointwise order on score vectors. -/
def ScoresLe (s t : Scores) : Prop :=
  s.numeracy ≤ t.numeracy ∧ s.reading ≤ t.reading ∧ s.computer ≤ t.computer ∧
  s.logic ≤ t.logic ∧ s.communication ≤ t.communication ∧ s.mindset ≤ t.mindset

instance (s t : Scores) : Decidable (ScoresLe s t) := by
  unfold ScoresLe; infer_instance

/-- Bounds on every pillar after the base draw and tier adjustment: with unit
draws, each pillar of `generateBaseScores` lies in `[0, maxScore]` whatever
the readiness level. -/
theorem generateBaseScores_bounds (readinessLevel : ℤ) (d : ScoreDraws)
    (a : AdjustDraws) (hd : d.Valid) (ha : a.Valid) :
    let s := generateBaseScores readinessLevel d a
    (0 ≤ s.numeracy ∧ s.numeracy ≤ PILLAR_CONFIG.numeracy.max) ∧
    (0 ≤ s.reading ∧ s.reading ≤ PILLAR_CONFIG.reading.max) ∧
    (0 ≤ s.computer ∧ s.computer ≤ PILLAR_CONFIG.computer.max) ∧
    (0 ≤ s.logic ∧ s.logic ≤ PILLAR_CONFIG.logic.max) ∧
    (0 ≤ s.communication ∧ s.communication ≤ PILLAR_CONFIG.communication.max) ∧
    (0 ≤ s.mindset ∧ s.mindset ≤ PILLAR_CONFIG.mindset.max) := by
  obtain ⟨hd1, hd2, hd3, hd4, hd5, hd6⟩ := hd
  obtain ⟨ha1, ha2, ha3, ha4, ha5, ha6⟩ := ha
  have b1 := randomInt_mem 2 10 d.numeracy hd1 (by omega)
  have b2 := randomInt_mem 1 5 d.reading hd2 (by omega)
  have b3 := randomInt_mem 2 10 d.computer hd3 (by omega)
  have b4 := randomInt_mem 2 8 d.logic hd4 (by omega)
  have b5 := randomInt_mem 1 5 d.communication hd5 (by omega)
  have b6 := randomInt_mem 2 7 d.mindset hd6 (by omega)
  have c1 := randomInt_mem 7 10 a.numeracy ha1 (by omega)
  have c1b := randomInt_mem 5 8 a.numeracy ha1 (by omega)
  have c1c := randomInt_mem 3 6 a.numeracy ha1 (by omega)
  have c1d := randomInt_mem 1 4 a.numeracy ha1 (by omega)
  have c2 := randomInt_mem 4 5 a.reading ha2 (by omega)
  have c2b := randomInt_mem 1 3 a.reading ha2 (by omega)
  have c2c := randomInt_mem 0 2 a.reading ha2 (by omega)
  have c3 := randomInt_mem 7 10 a.computer ha3 (by omega)
  have c3b := randomInt_mem 5 8 a.computer ha3 (by omega)
  have c3c := randomInt_mem 1 4 a.computer ha3 (by omega)
  have c4 := randomInt_mem 6 8 a.logic ha4 (by omega)
  have c4b := randomInt_mem 2 4 a.logic ha4 (by omega)
  have c4c := randomInt_mem 1 3 a.logic ha4 (by omega)
  have c5 := randomInt_mem 4 5 a.communication ha5 (by omega)
  have c5b := randomInt_mem 1 3 a.communication ha5 (by omega)
  have c5c := randomInt_mem 0 2 a.communication ha5 (by omega)
  have c6 := randomInt_mem 5 7 a.mindset ha6 (by omega)
  have c6b := randomInt_mem 4 6 a.mindset ha6 (by omega)
  have c6c := randomInt_mem 1 3 a.mindset ha6 (by omega)
  simp only [generateBaseScores, adjustForLevel, PILLAR_CONFIG]
  split_ifs <;> dsimp only <;> omega

/-- Weakness enforcement never raises a pillar score. -/
theorem enforcePatterns_le (s : Scores) (w : WeaknessDraws) :
    ScoresLe (enforcePatterns s w) s := by
  unfold ScoresLe
  rw [enforcePatterns_reading, enforcePatterns_communication,
    enforcePatterns_logic, enforcePatterns_numeracy,
    enforcePatterns_computer, enforcePatterns_mindset]
  split_ifs <;> omega

/-- C1: for every readiness level, every sequence of unit draws for the base
scores and tier adjustments, and every sequence of weakness-enforcement
draws, each pillar score produced by the generation pipeline (base draw,
tier adjustment, weakness enforcement) lies in `[0, maxScore]` for that
pillar's configured maximum (numeracy 10, reading 5, computer 10, logic 8,
communication 5, mindset 7). -/
theorem generated_scores_within_bounds (readinessLevel : ℤ) (d : ScoreDraws)
    (a : AdjustDraws) (w : WeaknessDraws) (hd : d.Valid) (ha : a.Valid) :
    let s := seedRecordScores readinessLevel d a w
    (0 ≤ s.numeracy ∧ s.numeracy ≤ 10) ∧
    (0 ≤ s.reading ∧ s.reading ≤ 5) ∧
    (0 ≤ s.computer ∧ s.computer ≤ 10) ∧
    (0 ≤ s.logic ∧ s.logic ≤ 8) ∧
    (0 ≤ s.communication ∧ s.communication ≤ 5) ∧
    (0 ≤ s.mindset ∧ s.mindset ≤ 7) := by
  have hbase := generateBaseScores_bounds readinessLevel d a hd ha
  simp only [PILLAR_CONFIG] at hbase
  have henf := enforcePatterns_le (generateBaseScores readinessLevel d a) w
  unfold ScoresLe at henf
  have hr := enforcePatterns_reading (generateBaseScores readinessLevel d a) w
  have hc := enforcePatterns_communication (generateBaseScores readinessLevel d a) w
  have hl := enforcePatterns_logic (generateBaseScores readinessLevel d a) w
  have hn := enforcePatterns_numeracy (generateBaseScores readinessLevel d a) w
  have hco := enforcePatterns_computer (generateBaseScores readinessLevel d a) w
  have hm := enforcePatterns_mindset (generateBaseScores readinessLevel d a) w
  simp only [WEAKNESS_TARGETS, PILLAR_CONFIG] at hr hc hl hn hco hm
  unfold seedRecordScores
  refine ⟨⟨?_, ?_⟩, ⟨?_, ?_⟩, ⟨?_, ?_⟩, ⟨?_, ?_⟩, ⟨?_, ?_⟩, ⟨?_, ?_⟩⟩ <;>
    first
      | (rw [hn]; split_ifs <;> omega)
      | (rw [hr]; split_ifs <;> omega)
      | (rw [hco]; split_ifs <;> omega)
      | (rw [hl]; split_ifs <;> omega)
      | (rw [hc]; split_ifs <;> omega)
      | (rw [hm]; split_ifs <;> omega)

/-- Witness for C1 at a concrete input: readiness level 3, all draws 0. -/
theorem generated_scores_within_bounds_witness :
    (ScoreDraws.Valid ⟨0, 0, 0, 0, 0, 0⟩ ∧
     AdjustDraws.Valid ⟨0, 0, 0, 0, 0, 0⟩) ∧
    (let s := seedRecordScores 3 ⟨0, 0, 0, 0, 0, 0⟩
        ⟨0, 0, 0, 0, 0, 0⟩ ⟨0, 0, 0, 0, 0, 0⟩
     (0 ≤ s.numeracy ∧ s.numeracy ≤ 10) ∧
     (0 ≤ s.reading ∧ s.reading ≤ 5) ∧
     (0 ≤ s.computer ∧ s.computer ≤ 10) ∧
     (0 ≤ s.logic ∧ s.logic ≤ 8) ∧
     (0 ≤ s.communication ∧ s.communication ≤ 5) ∧
     (0 ≤ s.mindset ∧ s.mindset ≤ 7)) :=
  ⟨⟨by decide, by decide⟩,
   generated_scores_within_bounds 3 ⟨0, 0, 0, 0, 0, 0⟩
     ⟨0, 0, 0, 0, 0, 0⟩ ⟨0, 0, 0, 0, 0, 0⟩
     (by decide) (by decide)⟩

/-- Full evaluation of the cumulative-probability loop over the configured
distribution, for an arbitrary draw. -/
theorem selectLoop_eval (rand : ℚ) :
    selectLoop rand READINESS_DISTRIBUTION 0 =
      if rand ≤ 15/100 then some ⟨1, "Ready to Start"⟩
      else if rand ≤ 55/100 then some ⟨2, "Ready with Quick Prep"⟩
      else if rand ≤ 80/100 then some ⟨3, "Need Foundation Work"⟩
      else if rand ≤ 95/100 then some ⟨4, "Need Comprehensive Prep"⟩
      else if rand ≤ 1 then some ⟨5, "Not Yet Ready"⟩
      else none := by
  simp only [READINESS_DISTRIBUTION, selectLoop]
  norm_num

/-- C3: readiness-tier selection walks the ordered tier list accumulating
the probabilities 0.15, 0.40, 0.25, 0.15, 0.05 and returns the first tier
whose cumulative probability is at or above the draw; for a draw strictly
above the final cumulative sum (1) the loop yields nothing and the
deterministic fallback returns the last, weakest tier; the function is total
and always yields a configured level-title pair from the distribution. -/
theorem selectReadinessLevel_spec (rand : ℚ) :
    (selectReadinessLevel rand =
      if rand ≤ 15/100 then ⟨1, "Ready to Start"⟩
      else if rand ≤ 55/100 then ⟨2, "Ready with Quick Prep"⟩
      else if rand ≤ 80/100 then ⟨3, "Need Foundation Work"⟩
      else if rand ≤ 95/100 then ⟨4, "Need Comprehensive Prep"⟩
      else ⟨5, "Not Yet Ready"⟩) ∧
    (1 < rand → selectLoop rand READINESS_DISTRIBUTION 0 = none ∧
      selectReadinessLevel rand = ⟨5, "Not Yet Ready"⟩) ∧
    (∃ config ∈ READINESS_DISTRIBUTION,
      selectReadinessLevel rand = ⟨config.level, config.title⟩) := by
  have hloop := selectLoop_eval rand
  have hchar : selectReadinessLevel rand =
      if rand ≤ 15/100 then ⟨1, "Ready to Start"⟩
      else if rand ≤ 55/100 then ⟨2, "Ready with Quick Prep"⟩
      else if rand ≤ 80/100 then ⟨3, "Need Foundation Work"⟩
      else if rand ≤ 95/100 then ⟨4, "Need Comprehensive Prep"⟩
      else ⟨5, "Not Yet Ready"⟩ := by
    unfold selectReadinessLevel
    rw [hloop]
    split_ifs <;> rfl
  refine ⟨hchar, ?_, ?_⟩
  · intro hgt
    have h1 : ¬rand ≤ 15/100 := by linarith
    have h2 : ¬rand ≤ 55/100 := by linarith
    have h3 : ¬rand ≤ 80/100 := by linarith
    have h4 : ¬rand ≤ 95/100 := by linarith
    have h5 : ¬rand ≤ 1 := by linarith
    rw [hloop, hchar]
    simp [h1, h2, h3, h4, h5]
  · rw [hchar]
    split_ifs <;>
      first
        | exact ⟨⟨1, "Ready to Start", 15/100⟩, by simp [READINESS_DISTRIBUTION], rfl⟩
        | exact ⟨⟨2, "Ready with Quick Prep", 40/100⟩, by simp [READINESS_DISTRIBUTION], rfl⟩
        | exact ⟨⟨3, "Need Foundation Work", 25/100⟩, by simp [READINESS_DISTRIBUTION], rfl⟩
        | exact ⟨⟨4, "Need Comprehensive Prep", 15/100⟩, by simp [READINESS_DISTRIBUTION], rfl⟩
        | exact ⟨⟨5, "Not Yet Ready", 5/100⟩, by simp [READINESS_DISTRIBUTION], rfl⟩

/-- Witness for C3 at a concrete fallback input: the draw 2 exceeds the
final cumulative sum, the loop yields nothing, and the last tier is
returned. -/
theorem selectReadinessLevel_spec_witness :
    (1 : ℚ) < 2 ∧ selectLoop 2 READINESS_DISTRIBUTION 0 = none ∧
      selectReadinessLevel 2 = ⟨5, "Not Yet Ready"⟩ := by
  have h := (selectReadinessLevel_spec 2).2.1 (by norm_num)
  exact ⟨by norm_num, h.1, h.2⟩

/-- C4: weakness enforcement runs after tier adjustment whatever the
readiness tier; for each pillar independently it leaves the score unchanged
or clamps it with `min` to at most that pillar's weakness threshold
(reading 2, communication 2, logic 3, numeracy 4, computer 4, mindset 3);
the clamp fires exactly when that pillar's injected draw is strictly below
its weakness target; and no pillar's score is ever increased by this step. -/
theorem enforcePatterns_spec (readinessLevel : ℤ) (d : ScoreDraws)
    (a : AdjustDraws) (w : WeaknessDraws) (s : Scores) :
    (seedRecordScores readinessLevel d a w =
      enforcePatterns (generateBaseScores readinessLevel d a) w) ∧
    ((enforcePatterns s w).reading =
      if w.reading < 68/100 then min s.reading 2 else s.reading) ∧
    ((enforcePatterns s w).communication =
      if w.communication < 62/100 then min s.communication 2
      else s.communication) ∧
    ((enforcePatterns s w).logic =
      if w.logic < 45/100 then min s.logic 3 else s.logic) ∧
    ((enforcePatterns s w).numeracy =
      if w.numeracy < 30/100 then min s.numeracy 4 else s.numeracy) ∧
    ((enforcePatterns s w).computer =
      if w.computer < 25/100 then min s.computer 4 else s.computer) ∧
    ((enforcePatterns s w).mindset =
      if w.mindset < 20/100 then min s.mindset 3 else s.mindset) ∧
    ScoresLe (enforcePatterns s w) s := by
  refine ⟨rfl, ?_, ?_, ?_, ?_, ?_, ?_, enforcePatterns_le s w⟩
  · have h := enforcePatterns_reading s w
    simpa [WEAKNESS_TARGETS, PILLAR_CONFIG] using h
  · have h := enforcePatterns_communication s w
    simpa [WEAKNESS_TARGETS, PILLAR_CONFIG] using h
  · have h := enforcePatterns_logic s w
    simpa [WEAKNESS_TARGETS, PILLAR_CONFIG] using h
  · have h := enforcePatterns_numeracy s w
    simpa [WEAKNESS_TARGETS, PILLAR_CONFIG] using h
  · have h := enforcePatterns_computer s w
    simpa [WEAKNESS_TARGETS, PILLAR_CONFIG] using h
  · have h := enforcePatterns_mindset s w
    simpa [WEAKNESS_TARGETS, PILLAR_CONFIG] using h

/-- C5: the tier-adjustment step modifies exactly the documented pillar
subsets with one-sided clamps against freshly drawn sub-range values: tier 1
applies `max` to all six pillars, tier 2 applies `max` only to numeracy,
computer and mindset, tier 3 leaves every base score unchanged, tier 4
applies `min` only to numeracy, reading, logic and communication, and tier 5
applies `min` to all six pillars; consequently tiers 1 and 2 never lower any
score and tiers 4 and 5 never raise any score, for every base score vector
and every sequence of draws. -/
theorem adjustForLevel_spec (readinessLevel : ℤ) (d : ScoreDraws)
    (scores : Scores) (a : AdjustDraws) :
    (generateBaseScores readinessLevel d a =
      adjustForLevel readinessLevel
        { numeracy := randomInt 2 10 d.numeracy
          reading := randomInt 1 5 d.reading
          computer := randomInt 2 10 d.computer
          logic := randomInt 2 8 d.logic
          communication := randomInt 1 5 d.communication
          mindset := randomInt 2 7 d.mindset } a) ∧
    (adjustForLevel 1 scores a =
      { numeracy := max scores.numeracy (randomInt 7 10 a.numeracy)
        reading := max scores.reading (randomInt 4 5 a.reading)
        computer := max scores.computer (randomInt 7 10 a.computer)
        logic := max scores.logic (randomInt 6 8 a.logic)
        communication := max scores.communication (randomInt 4 5 a.communication)
        mindset := max scores.mindset (randomInt 5 7 a.mindset) }) ∧
    (adjustForLevel 2 scores a =
      { scores with
        numeracy := max scores.numeracy (randomInt 5 8 a.numeracy)
        computer := max scores.computer (randomInt 5 8 a.computer)
        mindset := max scores.mindset (randomInt 4 6 a.mindset) }) ∧
    (adjustForLevel 3 scores a = scores) ∧
    (adjustForLevel 4 scores a =
      { scores with
        numeracy := min scores.numeracy (randomInt 3 6 a.numeracy)
        reading := min scores.reading (randomInt 1 3 a.reading)
        logic := min scores.logic (randomInt 2 4 a.logic)
        communication := min scores.communication (randomInt 1 3 a.communication) }) ∧
    (adjustForLevel 5 scores a =
      { numeracy := min scores.numeracy (randomInt 1 4 a.numeracy)
        reading := min scores.reading (randomInt 0 2 a.reading)
        computer := min scores.computer (randomInt 1 4 a.computer)
        logic := min scores.logic (randomInt 1 3 a.logic)
        communication := min scores.communication (randomInt 0 2 a.communication)
        mindset := min scores.mindset (randomInt 1 3 a.mindset) }) ∧
    ScoresLe scores (adjustForLevel 1 scores a) ∧
    ScoresLe scores (adjustForLevel 2 scores a) ∧
    ScoresLe (adjustForLevel 4 scores a) scores ∧
    ScoresLe (adjustForLevel 5 scores a) scores := by
  refine ⟨?_, ?_, ?_, ?_, ?_, ?_, ?_, ?_, ?_, ?_⟩
  · simp only [generateBaseScores, PILLAR_CONFIG]
  · norm_num [adjustForLevel]
  · norm_num [adjustForLevel]
  · norm_num [adjustForLevel]
  · norm_num [adjustForLevel]
  · norm_num [adjustForLevel]
  · norm_num [adjustForLevel, ScoresLe]
  · norm_num [adjustForLevel, ScoresLe]
  · norm_num [adjustForLevel, ScoresLe]
  · norm_num [adjustForLevel, ScoresLe]

/-- JavaScript numeric values as they occur in the reporter: a finite number,
NaN, Infinity, or SQL NULL (which JS arithmetic coerces to 0). -/
inductive JsVal where
  | num (q : ℚ)
  | nan
  | inf
  | null
deriving DecidableEq

/-- The ToNumber coercion JS applies to arithmetic operands: null becomes 0. -/
def jsNumOf : JsVal → JsVal
  | .null => .num 0
  | v => v

/-- JS division: a finite quotient when the divisor is nonzero, NaN for 0/0,
Infinity for x/0 with x nonzero. -/
def jsDiv (x y : JsVal) : JsVal :=
  match jsNumOf x, jsNumOf y with
  | .num a, .num b => if b = 0 then (if a = 0 then .nan else .inf) else .num (a / b)
  | .inf, .num _ => .inf
  | .num _, .inf => .num 0
  | _, _ => .nan

/-- JS multiplication; NaN propagates, Infinity times 0 is NaN. -/
def jsMul (x y : JsVal) : JsVal :=
  match jsNumOf x, jsNumOf y with
  | .num a, .num b => .num (a * b)
  | .inf, .num b => if b = 0 then .nan else .inf
  | .num a, .inf => if a = 0 then .nan else .inf
  | .inf, .inf => .inf
  | _, _ => .nan

/-- JS subtraction on the values the sort comparator sees; NaN propagates. -/
def jsSub (x y : JsVal) : JsVal :=
  match jsNumOf x, jsNumOf y with
  | .num a, .num b => .num (a - b)
  | _, _ => .nan

/-- The strictly-positive test the ECMAScript sort applies to a comparator
result; a NaN comparator result is treated as +0, hence not positive. -/
def jsGtZero : JsVal → Bool
  | .num a => decide (0 < a)
  | .inf => true
  | _ => false

/-- One persisted assessment row as read by the reporter. -/
structure AssessmentRow where
  numeracy_score : ℤ
  reading_score : ℤ
  computer_score : ℤ
  logic_score : ℤ
  communication_score : ℤ
  mindset_score : ℤ
  readiness_level : ℤ
  readiness_title : String
deriving DecidableEq

/-- One entry of the verify-patterns script's `PILLARS` array; the SQL column
name is embedded as the accessor it selects. -/
structure PillarSpec where
  name : String
  column : AssessmentRow → ℤ
  threshold : ℤ
  max : ℤ

/-- Embeds the verify-patterns script's `PILLARS` constant, in declaration
order. -/
def PILLARS : List PillarSpec :=
  [⟨"Reading", fun row => row.reading_score, 2, 5⟩,
   ⟨"Communication", fun row => row.communication_score, 2, 5⟩,
   ⟨"Logic", fun row => row.logic_score, 3, 8⟩,
   ⟨"Numeracy", fun row => row.numeracy_score, 4, 10⟩,
   ⟨"Computer", fun row => row.computer_score, 4, 10⟩,
   ⟨"Mindset", fun row => row.mindset_score, 3, 7⟩]

/-- The `SELECT COUNT(*) WHERE column <= threshold` query of
`analyzePatterns`. -/
def weakCount (rows : List AssessmentRow) (p : PillarSpec) : ℕ :=
  (rows.filter (fun row => p.column row ≤ p.threshold)).length

/-- The `SELECT AVG(column)` query of `analyzePatterns`: SQL AVG over an
empty table is NULL. -/
def sqlAvg (rows : List AssessmentRow) (column : AssessmentRow → ℤ) : JsVal :=
  if rows.isEmpty then .null
  else .num ((((rows.map column).sum : ℤ) : ℚ) / (rows.length : ℚ))

/-- One element of the `pillarStats` array built by `analyzePatterns`. -/
structure PillarStat where
  name : String
  weakCount : ℕ
  weakPct : JsVal
  avgScore : JsVal
  max : ℤ
  avgPct : JsVal
deriving DecidableEq

/-- One iteration of the `for (const pillar of PILLARS)` loop of
`analyzePatterns`: the weak count, the weakness percentage
`(weakCount / total) * 100`, the average and `(avgScore / max) * 100`. -/
def pillarStat (rows : List AssessmentRow) (p : PillarSpec) : PillarStat :=
  let total := rows.length
  let wc := weakCount rows p
  let avgScore := sqlAvg rows p.column
  { name := p.name
    weakCount := wc
    weakPct := jsMul (jsDiv (.num (wc : ℚ)) (.num (total : ℚ))) (.num 100)
    avgScore := avgScore
    max := p.max
    avgPct := jsMul (jsDiv avgScore (.num (p.max : ℚ))) (.num 100) }

/-- The full `pillarStats` array of `analyzePatterns`, in `PILLARS`
declaration order, before sorting. -/
def pillarStats (rows : List AssessmentRow) : List PillarStat :=
  PILLARS.map (pillarStat rows)

/-- The readiness-distribution `GROUP BY readiness_level` query of
`analyzePatterns`: one (level, count) group per readiness level present in
the data; over an empty table the result set is empty and the reporting loop
prints nothing. -/
def readinessGroups (rows : List AssessmentRow) : List (ℤ × ℕ) :=
  ((rows.map (fun row => row.readiness_level)).dedup).map
    (fun l => (l, (rows.filter (fun row => row.readiness_level = l)).length))

/-- C2 (the code contradicts the claim): over an empty record collection the
reporter's per-pillar weakness rates all evaluate to NaN, because
`weakCount / total` divides zero by the zero total with no guard; the SQL
averages are all NULL, not a defined zero; and the readiness-distribution
query returns no groups, so no readiness-level percentage is reported at
all.  NaN is not the defined zero value the claim requires. -/
theorem analyzePatterns_empty_divides_by_zero :
    ((pillarStats []).map (fun stat => stat.weakPct) =
      [JsVal.nan, JsVal.nan, JsVal.nan, JsVal.nan, JsVal.nan, JsVal.nan]) ∧
    ((pillarStats []).map (fun stat => stat.avgScore) =
      [JsVal.null, JsVal.null, JsVal.null, JsVal.null, JsVal.null, JsVal.null]) ∧
    readinessGroups [] = [] ∧
    JsVal.nan ≠ JsVal.num 0 := by
  refine ⟨?_, ?_, rfl, by decide⟩ <;> rfl

/-- Insertion step of a stable comparator sort: `keep x y` holds when the
comparator does not order `y` strictly before `x`, so the element `x` being
inserted passes over exactly the elements that must precede it. -/
def insertKeep (keep : α → α → Bool) (x : α) : List α → List α
  | [] => [x]
  | y :: ys => if keep x y then x :: y :: ys else y :: insertKeep keep x ys

/-- Stable comparator sort (insertion sort).  `Array.prototype.sort` is
required to be stable by the ECMAScript specification, and for a comparator
inducing a total preorder every stable sort produces this output. -/
def sortKeep (keep : α → α → Bool) : List α → List α
  | [] => []
  | x :: xs => insertKeep keep x (sortKeep keep xs)

/-- The keep relation of the `pillarStats.sort((a, b) => b.weakPct -
a.weakPct)` call of `analyzePatterns`: the earlier element `x` stays before
`y` unless the comparator result `y.weakPct - x.weakPct` is strictly
positive (a NaN comparator result counts as +0). -/
def cmpKeep (x y : PillarStat) : Bool :=
  !(jsGtZero (jsSub y.weakPct x.weakPct))

/-- The sorted `pillarStats` array of `analyzePatterns`. -/
def sortStats (stats : List PillarStat) : List PillarStat :=
  sortKeep cmpKeep stats

/-- The ranked pillar list of `analyzePatterns` for a record collection. -/
def rankedStats (rows : List AssessmentRow) : List PillarStat :=
  sortStats (pillarStats rows)

/-- The entry `analyzePatterns` flags as the primary weakness (index 0). -/
def primaryStat (rows : List AssessmentRow) : Option PillarStat :=
  (rankedStats rows).head?

/-- The entry `analyzePatterns` flags as the secondary weakness (index 1). -/
def secondaryStat (rows : List AssessmentRow) : Option PillarStat :=
  (rankedStats rows)[1]?

/-- Inserting splits the target list: the passed-over prefix consists
exactly of elements the inserted one must sort after. -/
theorem insertKeep_split (keep : α → α → Bool) (x : α) (l : List α) :
    ∃ l1 l2, l = l1 ++ l2 ∧ insertKeep keep x l = l1 ++ x :: l2 ∧
      ∀ y ∈ l1, keep x y = false := by
  induction l with
  | nil => exact ⟨[], [], rfl, rfl, by simp⟩
  | cons y ys ih =>
    by_cases h : keep x y = true
    · exact ⟨[], y :: ys, rfl, by simp [insertKeep, h], by simp⟩
    · obtain ⟨l1, l2, he, hi, hf⟩ := ih
      refine ⟨y :: l1, l2, by simp [he], ?_, ?_⟩
      · simp only [insertKeep, if_neg h, hi, List.cons_append]
      · intro z hz
        rcases List.mem_cons.mp hz with rfl | hz
        · exact Bool.not_eq_true _ ▸ (Bool.eq_false_iff.mpr h)
        · exact hf z hz

/-- Insertion permutes the element into the list. -/
theorem insertKeep_perm (keep : α → α → Bool) (x : α) (l : List α) :
    (insertKeep keep x l).Perm (x :: l) := by
  obtain ⟨l1, l2, he, hi, _⟩ := insertKeep_split keep x l
  rw [hi, he]
  exact List.perm_middle

/-- The stable sort is a permutation of its input. -/
theorem sortKeep_perm (keep : α → α → Bool) (l : List α) :
    (sortKeep keep l).Perm l := by
  induction l with
  | nil => rfl
  | cons x xs ih =>
    exact (insertKeep_perm keep x (sortKeep keep xs)).trans (ih.cons x)

/-- Insertion preserves sortedness, for a keep relation that is total and
transitive enough on the elements involved. -/
theorem insertKeep_pairwise (keep : α → α → Bool) (x : α) (m : List α)
    (hm : m.Pairwise (fun a b => keep a b = true))
    (htot : ∀ y ∈ m, keep x y = true ∨ keep y x = true)
    (htrans : ∀ y ∈ m, ∀ z ∈ m,
      keep x y = true → keep y z = true → keep x z = true) :
    (insertKeep keep x m).Pairwise (fun a b => keep a b = true) := by
  induction m with
  | nil => simp [insertKeep]
  | cons y ys ih =>
    rw [List.pairwise_cons] at hm
    obtain ⟨hy, hys⟩ := hm
    by_cases h : keep x y = true
    · rw [insertKeep, if_pos h]
      refine List.pairwise_cons.mpr ⟨?_, List.pairwise_cons.mpr ⟨hy, hys⟩⟩
      intro b hb
      rcases List.mem_cons.mp hb with rfl | hb
      · exact h
      · exact htrans y (List.mem_cons_self y ys) b (List.mem_cons_of_mem y hb)
          h (hy b hb)
    · rw [insertKeep, if_neg h]
      refine List.pairwise_cons.mpr ⟨?_, ?_⟩
      · intro b hb
        have hb' : b = x ∨ b ∈ ys := by
          simpa using (insertKeep_perm keep x ys).mem_iff.mp hb
        rcases hb' with rfl | hb'
        · rcases htot y (List.mem_cons_self y ys) with h1 | h2
          · exact absurd h1 h
          · exact h2
        · exact hy b hb'
      · refine ih hys ?_ ?_
        · intro z hz
          exact htot z (List.mem_cons_of_mem y hz)
        · intro z hz u hu
          exact htrans z (List.mem_cons_of_mem y hz) u (List.mem_cons_of_mem y hu)

/-- Sortedness of the stable sort, for a keep relation that is total and
transitive on the elements of the list. -/
theorem sortKeep_pairwise (keep : α → α → Bool) (l : List α)
    (htot : ∀ a ∈ l, ∀ b ∈ l, keep a b = true ∨ keep b a = true)
    (htrans : ∀ a ∈ l, ∀ b ∈ l, ∀ c ∈ l,
      keep a b = true → keep b c = true → keep a c = true) :
    (sortKeep keep l).Pairwise (fun a b => keep a b = true) := by
  induction l with
  | nil => exact List.Pairwise.nil
  | cons x xs ih =>
    have hmem : ∀ z ∈ sortKeep keep xs, z ∈ x :: xs := fun z hz =>
      List.mem_cons_of_mem x ((sortKeep_perm keep xs).mem_iff.mp hz)
    have hsub : ∀ z ∈ xs, z ∈ x :: xs := fun z hz => List.mem_cons_of_mem x hz
    have hp : (sortKeep keep xs).Pairwise (fun a b => keep a b = true) := by
      apply ih
      · intro a ha b hb
        exact htot a (hsub a ha) b (hsub b hb)
      · intro a ha b hb c hc
        exact htrans a (hsub a ha) b (hsub b hb) c (hsub c hc)
    refine insertKeep_pairwise keep x (sortKeep keep xs) hp ?_ ?_
    · intro y hy
      exact htot x (List.mem_cons_self x xs) y (hmem y hy)
    · intro y hy z hz
      exact htrans x (List.mem_cons_self x xs) y (hmem y hy) z (hmem z hz)

/-- Stability of the sort with respect to any key the comparator separates:
the sublist of elements whose key equals any fixed value is exactly the same,
in the same order, before and after sorting. -/
theorem sortKeep_filter_key {β : Type} [DecidableEq β] (keep : α → α → Bool)
    (key : α → β) (hne : ∀ x y, keep x y = false → key x ≠ key y)
    (l : List α) (k : β) :
    (sortKeep keep l).filter (fun z => key z = k) =
      l.filter (fun z => key z = k) := by
  induction l with
  | nil => rfl
  | cons x xs ih =>
    obtain ⟨l1, l2, he, hi, hf⟩ := insertKeep_split keep x (sortKeep keep xs)
    have hsplit : xs.filter (fun z => key z = k) =
        l1.filter (fun z => key z = k) ++ l2.filter (fun z => key z = k) := by
      rw [← List.filter_append, ← he, ih]
    rw [show sortKeep keep (x :: xs) = insertKeep keep x (sortKeep keep xs)
      from rfl, hi, List.filter_append]
    by_cases hk : key x = k
    · have hl1 : l1.filter (fun z => key z = k) = [] := by
        rw [List.filter_eq_nil_iff]
        intro z hz
        have hzk : key x ≠ key z := hne x z (hf z hz)
        simp only [decide_eq_true_eq]
        rw [← hk]
        exact fun hzz => hzk hzz.symm
      rw [hl1, List.nil_append, List.filter_cons_of_pos (by simpa using hk),
        List.filter_cons_of_pos (by simpa using hk), hsplit, hl1,
        List.nil_append]
    · rw [List.filter_cons_of_neg (by simpa using hk),
        List.filter_cons_of_neg (by simpa using hk), hsplit]

/-- A pillar stat passed over during the sort has a strictly different
weakness percentage: the comparator only orders strictly on distinct
values. -/
theorem cmpKeep_false_ne (x y : PillarStat) (h : cmpKeep x y = false) :
    x.weakPct ≠ y.weakPct := by
  intro heq
  rw [cmpKeep, heq] at h
  cases hv : y.weakPct <;> rw [hv] at h <;> simp [jsSub, jsGtZero, jsNumOf] at h

/-- Every weakness percentage in `pillarStats rows` is NaN when the
collection is empty, and a finite number otherwise. -/
theorem pillarStats_weakPct_kind (rows : List AssessmentRow) :
    (rows = [] ∧ ∀ s ∈ pillarStats rows, s.weakPct = JsVal.nan) ∨
    (rows ≠ [] ∧ ∀ s ∈ pillarStats rows, ∃ q : ℚ, s.weakPct = JsVal.num q) := by
  by_cases h : rows = []
  · left
    refine ⟨h, ?_⟩
    subst h
    intro s hs
    simp only [pillarStats, List.mem_map] at hs
    obtain ⟨p, _, rfl⟩ := hs
    rfl
  · right
    refine ⟨h, ?_⟩
    intro s hs
    simp only [pillarStats, List.mem_map] at hs
    obtain ⟨p, _, rfl⟩ := hs
    have hlen : (rows.length : ℚ) ≠ 0 := by
      simp [List.length_eq_zero, h]
    refine ⟨(((weakCount rows p : ℚ)) / (rows.length : ℚ)) * 100, ?_⟩
    simp [pillarStat, jsMul, jsDiv, jsNumOf, hlen]

/-- The comparator keep relation is total on stats whose percentages are all
NaN or all finite. -/
theorem cmpKeep_total (rows : List AssessmentRow) :
    ∀ a ∈ pillarStats rows, ∀ b ∈ pillarStats rows,
      cmpKeep a b = true ∨ cmpKeep b a = true := by
  intro a ha b hb
  rcases pillarStats_weakPct_kind rows with ⟨_, hall⟩ | ⟨_, hall⟩
  · rw [cmpKeep, cmpKeep, hall a ha, hall b hb]
    left
    rfl
  · obtain ⟨qa, hqa⟩ := hall a ha
    obtain ⟨qb, hqb⟩ := hall b hb
    rw [cmpKeep, cmpKeep, hqa, hqb]
    simp only [jsSub, jsNumOf, jsGtZero, Bool.not_eq_true', decide_eq_false_iff_not,
      not_lt]
    rcases le_total qa qb with hq | hq
    · right
      simpa using by linarith
    · left
      simpa using by linarith

/-- The comparator keep relation is transitive on stats whose percentages
are all NaN or all finite. -/
theorem cmpKeep_trans (rows : List AssessmentRow) :
    ∀ a ∈ pillarStats rows, ∀ b ∈ pillarStats rows, ∀ c ∈ pillarStats rows,
      cmpKeep a b = true → cmpKeep b c = true → cmpKeep a c = true := by
  intro a ha b hb c hc hab hbc
  rcases pillarStats_weakPct_kind rows with ⟨_, hall⟩ | ⟨_, hall⟩
  · rw [cmpKeep, hall a ha, hall c hc]
    rfl
  · obtain ⟨qa, hqa⟩ := hall a ha
    obtain ⟨qb, hqb⟩ := hall b hb
    obtain ⟨qc, hqc⟩ := hall c hc
    rw [cmpKeep, hqa, hqb] at hab
    rw [cmpKeep, hqb, hqc] at hbc
    rw [cmpKeep, hqa, hqc]
    simp only [jsSub, jsNumOf, jsGtZero, Bool.not_eq_true', decide_eq_false_iff_not,
      not_lt] at hab hbc ⊢
    linarith

/-- C8: the reporter's pillar ranking is deterministic and stable: the
ranked list is sorted in descending order of weakness percentage, the
sublist of pillars sharing any fixed weakness percentage keeps exactly the
`PILLARS` declaration order, and the primary and secondary findings are the
first two entries of the ranked list. -/
theorem pillar_ranking_spec (rows : List AssessmentRow) :
    (rankedStats rows).Pairwise
      (fun s t => ∀ a b : ℚ, s.weakPct = JsVal.num a → t.weakPct = JsVal.num b →
        b ≤ a) ∧
    (∀ k : JsVal, (rankedStats rows).filter (fun s => s.weakPct = k) =
      (pillarStats rows).filter (fun s => s.weakPct = k)) ∧
    primaryStat rows = (rankedStats rows).head? ∧
    secondaryStat rows = (rankedStats rows)[1]? := by
  refine ⟨?_, ?_, rfl, rfl⟩
  · have hp := sortKeep_pairwise cmpKeep (pillarStats rows)
      (cmpKeep_total rows) (cmpKeep_trans rows)
    refine hp.imp ?_
    intro s t hst a b hsa htb
    rw [cmpKeep, hsa, htb] at hst
    simp only [jsSub, jsNumOf, jsGtZero, Bool.not_eq_true', decide_eq_false_iff_not,
      not_lt] at hst
    linarith
  · intro k
    exact sortKeep_filter_key cmpKeep (fun s => s.weakPct) cmpKeep_false_ne
      (pillarStats rows) k

/-- The double-quote character, written via its code point. -/
def quoteChar : Char := Char.ofNat 34

/-- One row as returned by `getAllAssessments` for the CSV export; sql.js
can surface NULL in any column, which the export maps to an empty field. -/
structure DbRow where
  session_id : Option String
  timestamp : Option String
  numeracy_score : Option ℤ
  reading_score : Option ℤ
  computer_score : Option ℤ
  logic_score : Option ℤ
  communication_score : Option ℤ
  mindset_score : Option ℤ
  readiness_level : Option ℤ
  readiness_title : Option String
deriving DecidableEq

/-- The `headers` array of the CSV export handler, in source order. -/
def headers : List String :=
  ["session_id", "timestamp", "numeracy_score", "reading_score",
   "computer_score", "logic_score", "communication_score", "mindset_score",
   "readiness_level", "readiness_title"]

/-- Models the JS `String.prototype.includes` test for a single character. -/
def strContains (s : String) (c : Char) : Bool :=
  s.data.contains c

/-- Character-level double-quote doubling. -/
def escDouble : List Char → List Char
  | [] => []
  | c :: cs =>
    if c = quoteChar then quoteChar :: quoteChar :: escDouble cs
    else c :: escDouble cs

/-- Models the global replacement `stringValue.replace` of each double quote
by two double quotes inside `escapeCSVField`. -/
def escapeQuotes (s : String) : String :=
  String.mk (escDouble s.data)

/-- Embeds `escapeCSVField(value)` from the CSV export endpoint: null maps
to the empty field; a field containing a comma, double quote, newline or
carriage return is wrapped in double quotes with inner quotes doubled. -/
def escapeCSVField (value : Option String) : String :=
  match value with
  | none => ""
  | some stringValue =>
    let needsQuotes := strContains stringValue ',' ||
      strContains stringValue quoteChar ||
      strContains stringValue '\n' || strContains stringValue '\r'
    if needsQuotes then
      String.singleton quoteChar ++ escapeQuotes stringValue ++
        String.singleton quoteChar
    else stringValue

/-- A nullable numeric column as rendered by `row.x ?? ''` inside the
export's `join(',')`. -/
def scoreField : Option ℤ → String
  | none => ""
  | some n => toString n

/-- Models `Array.prototype.join(sep)`. -/
def joinWith (sep : String) : List String → String
  | [] => ""
  | [x] => x
  | x :: xs => x ++ sep ++ joinWith sep xs

/-- One data line of the CSV export handler: the ten columns in source
order, joined with commas; only the readiness title goes through
`escapeCSVField`, the identifier and timestamp are emitted via `|| ''` and
the scores via `?? ''`. -/
def csvLine (row : DbRow) : String :=
  joinWith ","
    [row.session_id.getD "", row.timestamp.getD "",
     scoreField row.numeracy_score, scoreField row.reading_score,
     scoreField row.computer_score, scoreField row.logic_score,
     scoreField row.communication_score, scoreField row.mindset_score,
     scoreField row.readiness_level,
     escapeCSVField (some (row.readiness_title.getD ""))]

/-- The full CSV body of the export handler: the joined header line followed
by one line per record, all joined with newlines. -/
def csvContent (rows : List DbRow) : String :=
  joinWith "\n" (joinWith "," headers :: rows.map csvLine)

/-- C7: the CSV export emits first the exact header line naming the ten
columns in the contractual order, then one comma-joined line per record
with fields in that same column order; the readiness title is quoted
whenever it contains a comma, double quote, newline (or carriage return),
with embedded double quotes escaped by doubling, and is emitted verbatim
otherwise. -/
theorem csv_export_format (rows : List DbRow) :
    (csvContent rows = joinWith "\n"
      ("session_id,timestamp,numeracy_score,reading_score,computer_score,logic_score,communication_score,mindset_score,readiness_level,readiness_title"
        :: rows.map csvLine)) ∧
    (∀ row : DbRow, csvLine row =
      row.session_id.getD "" ++ "," ++ (row.timestamp.getD "" ++ "," ++
      (scoreField row.numeracy_score ++ "," ++ (scoreField row.reading_score ++
      "," ++ (scoreField row.computer_score ++ "," ++
      (scoreField row.logic_score ++ "," ++
      (scoreField row.communication_score ++ "," ++
      (scoreField row.mindset_score ++ "," ++
      (scoreField row.readiness_level ++ "," ++
      escapeCSVField (some (row.readiness_title.getD ""))))))))))) ∧
    (∀ s : String,
      (strContains s ',' || strContains s quoteChar || strContains s '\n' ||
        strContains s '\r') = true →
      escapeCSVField (some s) =
        String.singleton quoteChar ++ escapeQuotes s ++
          String.singleton quoteChar) ∧
    (∀ s : String,
      (strContains s ',' || strContains s quoteChar || strContains s '\n' ||
        strContains s '\r') = false →
      escapeCSVField (some s) = s) ∧
    (∀ s : String, (escapeQuotes s).data =
      s.data.flatMap (fun c => if c = quoteChar then [quoteChar, quoteChar]
        else [c])) := by
  refine ⟨rfl, ?_, ?_, ?_, ?_⟩
  · intro row
    simp only [csvLine, joinWith, String.append_assoc]
  · intro s h
    simp only [escapeCSVField, h, if_pos]
  · intro s h
    simp only [escapeCSVField, h, Bool.false_eq_true, if_false]
  · intro s
    simp only [escapeQuotes]
    induction s.data with
    | nil => rfl
    | cons c cs ih =>
      by_cases hc : c = quoteChar
      · simp [escDouble, hc, ih]
      · simp [escDouble, hc, ih]

/-- Witness for C7's quoting clauses at concrete fields: a title containing
a comma is quoted, and a plain title is passed through verbatim. -/
theorem csv_export_format_witness :
    ((strContains "Ready, mostly" ',' || strContains "Ready, mostly" quoteChar ||
      strContains "Ready, mostly" '\n' || strContains "Ready, mostly" '\r') = true ∧
     escapeCSVField (some "Ready, mostly") =
       String.singleton quoteChar ++ escapeQuotes "Ready, mostly" ++
         String.singleton quoteChar) ∧
    ((strContains "Ready to Start" ',' || strContains "Ready to Start" quoteChar ||
      strContains "Ready to Start" '\n' || strContains "Ready to Start" '\r') = false ∧
     escapeCSVField (some "Ready to Start") = "Ready to Start") :=
  ⟨⟨by decide, (csv_export_format []).2.2.1 "Ready, mostly" (by decide)⟩,
   ⟨by decide, (csv_export_format []).2.2.2.1 "Ready to Start" (by decide)⟩⟩

/-- Standard CSV reading of one quoted field, after its opening quote: a
doubled quote is an escaped quote, a single quote closes the field.  Fuel
bounds the recursion; any fuel at least the input length suffices. -/
def readQuoted : ℕ → List Char → Option (List Char × List Char)
  | 0, _ => none
  | _ + 1, [] => none
  | fuel + 1, c :: cs =>
    if c = quoteChar then
      match cs with
      | [] => some ([], [])
      | c2 :: rest =>
        if c2 = quoteChar then
          (readQuoted fuel rest).map (fun p => (quoteChar :: p.1, p.2))
        else some ([], c2 :: rest)
    else
      (readQuoted fuel cs).map (fun p => (c :: p.1, p.2))

/-- Standard CSV reading of one record line into its fields: a field
starting with a double quote is read quoted, any other field extends to the
next comma. -/
def parseRecord : ℕ → List Char → Option (List String)
  | 0, _ => none
  | _ + 1, [] => some [""]
  | fuel + 1, c :: cs =>
    if c = quoteChar then
      match readQuoted (cs.length + 1) cs with
      | none => none
      | some (f, rest) =>
        match rest with
        | [] => some [String.mk f]
        | c2 :: rest2 =>
          if c2 = ',' then
            (parseRecord fuel rest2).map (fun fs => String.mk f :: fs)
          else none
    else
      match (c :: cs).dropWhile (fun x => x ≠ ',') with
      | [] => some [String.mk ((c :: cs).takeWhile (fun x => x ≠ ','))]
      | _ :: rest2 =>
        (parseRecord fuel rest2).map
          (fun fs => String.mk ((c :: cs).takeWhile (fun x => x ≠ ',')) :: fs)

/-- Standard CSV unquoting of one record line. -/
def parseCSVRecord (s : String) : Option (List String) :=
  parseRecord (s.length + 1) s.data

/-- Reading back a quote-doubled field: the quoted reader undoes
`escDouble` exactly and stops at the closing quote. -/
theorem readQuoted_escDouble (t : List Char) :
    ∀ fuel, (escDouble t).length + 1 ≤ fuel →
      readQuoted fuel (escDouble t ++ [quoteChar]) = some (t, []) := by
  induction t with
  | nil =>
    intro fuel hf
    obtain ⟨m, rfl⟩ : ∃ m, fuel = m + 1 := ⟨fuel - 1, by omega⟩
    simp [readQuoted, escDouble]
  | cons c cs ih =>
    intro fuel hf
    by_cases hc : c = quoteChar
    · subst hc
      have he : escDouble (quoteChar :: cs) =
          quoteChar :: quoteChar :: escDouble cs := by
        simp [escDouble]
      rw [he] at hf ⊢
      simp only [List.length_cons] at hf
      obtain ⟨m, rfl⟩ : ∃ m, fuel = m + 1 := ⟨fuel - 1, by omega⟩
      rw [List.cons_append, List.cons_append]
      simp [readQuoted, ih m (by omega)]
    · have he : escDouble (c :: cs) = c :: escDouble cs := by
        simp [escDouble, hc]
      rw [he] at hf ⊢
      simp only [List.length_cons] at hf
      obtain ⟨m, rfl⟩ : ∃ m, fuel = m + 1 := ⟨fuel - 1, by omega⟩
      rw [List.cons_append]
      simp [readQuoted, hc, ih m (by omega)]

/-- A comma-free prefix is exactly what `takeWhile` keeps. -/
theorem takeWhile_comma_append (f rest : List Char) (hf : ',' ∉ f) :
    (f ++ ',' :: rest).takeWhile (fun x => x ≠ ',') = f := by
  induction f with
  | nil => simp
  | cons c cs ih =>
    have hc : (c ≠ ',') := fun h => hf (h ▸ List.mem_cons_self c cs)
    have hcs : ',' ∉ cs := fun h => hf (List.mem_cons_of_mem c h)
    rw [List.cons_append, List.takeWhile_cons, if_pos (by simpa using hc),
      ih hcs]

/-- A comma-free prefix is exactly what `dropWhile` skips. -/
theorem dropWhile_comma_append (f rest : List Char) (hf : ',' ∉ f) :
    (f ++ ',' :: rest).dropWhile (fun x => x ≠ ',') = ',' :: rest := by
  induction f with
  | nil => simp
  | cons c cs ih =>
    have hc : (c ≠ ',') := fun h => hf (h ▸ List.mem_cons_self c cs)
    have hcs : ',' ∉ cs := fun h => hf (List.mem_cons_of_mem c h)
    rw [List.cons_append, List.dropWhile_cons, if_pos (by simpa using hc),
      ih hcs]

/-- Reading one plain (comma-free, quote-free) field followed by a comma
peels it off the record. -/
theorem parseRecord_cons (f : List Char) (hcomma : ',' ∉ f)
    (hquote : quoteChar ∉ f) (rest : List Char) (fuel : ℕ) :
    parseRecord (fuel + 1) (f ++ ',' :: rest) =
      (parseRecord fuel rest).map (fun fs => String.mk f :: fs) := by
  cases f with
  | nil =>
    rw [List.nil_append, parseRecord]
    rw [if_neg (by decide : ¬(',' = quoteChar))]
    have hd : (',' :: rest).dropWhile (fun x => x ≠ ',') = ',' :: rest := by
      simp [List.dropWhile_cons]
    have ht : (',' :: rest).takeWhile (fun x => x ≠ ',') = [] := by
      simp [List.takeWhile_cons]
    rw [hd]
    simp only [ht]
  | cons c cs =>
    have hc : c ≠ quoteChar := fun h => hquote (h ▸ List.mem_cons_self c cs)
    rw [List.cons_append, parseRecord, if_neg hc, ← List.cons_append]
    rw [dropWhile_comma_append (c :: cs) rest hcomma,
      takeWhile_comma_append (c :: cs) rest hcomma]

/-- Reading a final plain field consumes the whole rest of the line. -/
theorem parseRecord_last_plain (f : List Char) (hcomma : ',' ∉ f)
    (hquote : quoteChar ∉ f) (fuel : ℕ) :
    parseRecord (fuel + 1) f = some [String.mk f] := by
  cases f with
  | nil => rfl
  | cons c cs =>
    have hc : c ≠ quoteChar := fun h => hquote (h ▸ List.mem_cons_self c cs)
    rw [parseRecord, if_neg hc]
    have hall : ∀ x ∈ c :: cs, (fun x => x ≠ ',') x := by
      intro x hx
      simp only [ne_eq, decide_eq_true_eq]
      exact fun h => hcomma (h ▸ hx)
    rw [List.dropWhile_eq_nil_iff.mpr (by simpa using hall)]
    rw [List.takeWhile_eq_self_iff.mpr (by simpa using hall)]

/-- Reading a final quoted field: the emitted quoting of an arbitrary title
is undone exactly. -/
theorem parseRecord_last_quoted (t : List Char) (fuel : ℕ) :
    parseRecord (fuel + 1) (quoteChar :: (escDouble t ++ [quoteChar])) =
      some [String.mk t] := by
  rw [parseRecord, if_pos rfl,
    readQuoted_escDouble t ((escDouble t ++ [quoteChar]).length + 1)
      (by simp)]

/-- The char-level shape of a record line: plain fields each followed by a
comma, then the final field. -/
def fieldsPrefix : List (List Char) → List Char → List Char
  | [], tail => tail
  | f :: fs, tail => f ++ ',' :: fieldsPrefix fs tail

/-- Parsing peels off every leading plain field of a record line. -/
theorem parseRecord_fieldsPrefix (fs : List (List Char)) (tail : List Char) :
    ∀ fuel, (∀ f ∈ fs, ',' ∉ f ∧ quoteChar ∉ f) →
      parseRecord (fuel + fs.length) (fieldsPrefix fs tail) =
        (parseRecord fuel tail).map
          (fun rest => fs.map String.mk ++ rest) := by
  induction fs with
  | nil =>
    intro fuel _
    cases hopt : parseRecord fuel tail <;> simp [fieldsPrefix, hopt]
  | cons f fs ih =>
    intro fuel hplain
    have hf := hplain f (List.mem_cons_self f fs)
    have hfs : ∀ g ∈ fs, ',' ∉ g ∧ quoteChar ∉ g := fun g hg =>
      hplain g (List.mem_cons_of_mem f hg)
    show parseRecord (fuel + (fs.length + 1))
        (f ++ ',' :: fieldsPrefix fs tail) = _
    rw [show fuel + (fs.length + 1) = (fuel + fs.length) + 1 from rfl,
      parseRecord_cons f hf.1 hf.2 (fieldsPrefix fs tail) (fuel + fs.length),
      ih fuel hfs]
    cases hopt : parseRecord fuel tail <;> simp [hopt]

/-- A record line is at least as long as its field count. -/
theorem fieldsPrefix_length_ge (fs : List (List Char)) (tail : List Char) :
    fs.length ≤ (fieldsPrefix fs tail).length := by
  induction fs with
  | nil => simp [fieldsPrefix]
  | cons f fs ih =>
    simp only [fieldsPrefix, List.length_append, List.length_cons]
    omega

/-- The characters of a comma-joined field list are the comma-separated
concatenation of the fields' characters. -/
theorem joinWith_comma_data (ss : List String) (last : String) :
    (joinWith "," (ss ++ [last])).data =
      fieldsPrefix (ss.map String.data) last.data := by
  induction ss with
  | nil => simp [joinWith, fieldsPrefix]
  | cons x xs ih =>
    cases xs with
    | nil => simp [joinWith, fieldsPrefix, String.data_append]
    | cons y ys =>
      show (joinWith "," (x :: (y :: (ys ++ [last])))).data = _
      have h1 : joinWith "," (x :: (y :: (ys ++ [last]))) =
          x ++ "," ++ joinWith "," (y :: (ys ++ [last])) := rfl
      rw [List.cons_append] at ih
      rw [h1, String.data_append, String.data_append, ih]
      simp [List.append_assoc, fieldsPrefix]

/-- The decimal rendering of a small nonnegative integer contains neither a
comma nor a double quote. -/
theorem intString_plain (z : ℤ) (h0 : 0 ≤ z) (h1 : z ≤ 10) :
    ',' ∉ (toString z).data ∧ quoteChar ∉ (toString z).data := by
  interval_cases z <;> decide

/-- Decimal digit accumulation of the standard numeric re-parse of an
exported score field. -/
def parseNatDigits : List Char → ℕ → Option ℕ
  | [], acc => some acc
  | c :: cs, acc =>
    if c.isDigit then parseNatDigits cs (acc * 10 + (c.toNat - 48)) else none

/-- Standard decimal re-parse of a numeric CSV field. -/
def parseIntField (s : String) : Option ℤ :=
  match s.data with
  | [] => none
  | '-' :: ds => (parseNatDigits ds 0).map (fun n => -(n : ℤ))
  | ds => (parseNatDigits ds 0).map (fun n => (n : ℤ))

/-- The decimal rendering of a small nonnegative integer re-parses to the
same integer. -/
theorem intString_toInt (z : ℤ) (h0 : 0 ≤ z) (h1 : z ≤ 10) :
    parseIntField (toString z) = some z := by
  interval_cases z <;> decide

/-- A failed character containment test means absence. -/
theorem strContains_false (s : String) (c : Char)
    (h : strContains s c = false) : c ∉ s.data := by
  simpa [strContains] using h

/-- Reading back the final, possibly-quoted title field of a line. -/
theorem parseRecord_title (title : String) (k : ℕ) :
    parseRecord (k + 1) (escapeCSVField (some title)).data = some [title] := by
  by_cases hq : (strContains title ',' || strContains title quoteChar ||
      strContains title '\n' || strContains title '\r') = true
  · have he : escapeCSVField (some title) =
        String.singleton quoteChar ++ escapeQuotes title ++
          String.singleton quoteChar := by
      simp [escapeCSVField, hq]
    rw [he]
    have hd : (String.singleton quoteChar ++ escapeQuotes title ++
        String.singleton quoteChar).data =
        quoteChar :: (escDouble title.data ++ [quoteChar]) := by
      simp [String.data_append, escapeQuotes, String.singleton]
    rw [hd]
    exact parseRecord_last_quoted title.data k
  · have hq' : (strContains title ',' || strContains title quoteChar ||
        strContains title '\n' || strContains title '\r') = false := by
      simpa using hq
    have he : escapeCSVField (some title) = title := by
      simp only [escapeCSVField, hq']
      rfl
    rw [he]
    simp only [Bool.or_eq_false_iff] at hq'
    exact parseRecord_last_plain title.data
      (strContains_false title ',' hq'.1.1.1)
      (strContains_false title quoteChar hq'.1.1.2) k

/-- C9: the CSV export is lossless for well-formed stored records: for any
record whose identifier and timestamp contain no comma or double quote and
whose scores are the bounded integers the pipeline produces, re-parsing the
emitted line under standard CSV unquoting recovers all ten fields exactly —
including a readiness title containing commas, quotes or newlines — and the
decimal score fields re-parse to the original integers. -/
theorem csv_roundtrip_lossless (row : DbRow) (sid ts title : String)
    (n r c lg cm ms lv : ℤ)
    (hsid : row.session_id = some sid)
    (hsid1 : strContains sid ',' = false)
    (hsid2 : strContains sid quoteChar = false)
    (hts : row.timestamp = some ts)
    (hts1 : strContains ts ',' = false)
    (hts2 : strContains ts quoteChar = false)
    (hn : row.numeracy_score = some n) (hn0 : 0 ≤ n) (hn1 : n ≤ 10)
    (hr : row.reading_score = some r) (hr0 : 0 ≤ r) (hr1 : r ≤ 10)
    (hc : row.computer_score = some c) (hc0 : 0 ≤ c) (hc1 : c ≤ 10)
    (hlg : row.logic_score = some lg) (hlg0 : 0 ≤ lg) (hlg1 : lg ≤ 10)
    (hcm : row.communication_score = some cm) (hcm0 : 0 ≤ cm) (hcm1 : cm ≤ 10)
    (hms : row.mindset_score = some ms) (hms0 : 0 ≤ ms) (hms1 : ms ≤ 10)
    (hlv : row.readiness_level = some lv) (hlv0 : 0 ≤ lv) (hlv1 : lv ≤ 10)
    (htitle : row.readiness_title = some title) :
    parseCSVRecord (csvLine row) =
      some [sid, ts, toString n, toString r, toString c, toString lg,
        toString cm, toString ms, toString lv, title] ∧
    parseIntField (toString n) = some n ∧
    parseIntField (toString r) = some r ∧
    parseIntField (toString c) = some c ∧
    parseIntField (toString lg) = some lg ∧
    parseIntField (toString cm) = some cm ∧
    parseIntField (toString ms) = some ms ∧
    parseIntField (toString lv) = some lv := by
  have hline : csvLine row = joinWith ","
      ([sid, ts, toString n, toString r, toString c, toString lg,
        toString cm, toString ms, toString lv] ++
       [escapeCSVField (some title)]) := by
    simp only [csvLine, hsid, hts, hn, hr, hc, hlg, hcm, hms, hlv, htitle,
      Option.getD_some, scoreField]
    rfl
  have hdata : (csvLine row).data =
      fieldsPrefix [sid.data, ts.data, (toString n).data, (toString r).data,
        (toString c).data, (toString lg).data, (toString cm).data,
        (toString ms).data, (toString lv).data]
        (escapeCSVField (some title)).data := by
    rw [hline, joinWith_comma_data]
    rfl
  have hplain : ∀ f ∈ [sid.data, ts.data, (toString n).data,
      (toString r).data, (toString c).data, (toString lg).data,
      (toString cm).data, (toString ms).data, (toString lv).data],
      ',' ∉ f ∧ quoteChar ∉ f := by
    intro f hf
    simp only [List.mem_cons, List.not_mem_nil, or_false] at hf
    rcases hf with rfl | rfl | rfl | rfl | rfl | rfl | rfl | rfl | rfl
    · exact ⟨strContains_false sid ',' hsid1, strContains_false sid quoteChar hsid2⟩
    · exact ⟨strContains_false ts ',' hts1, strContains_false ts quoteChar hts2⟩
    · exact intString_plain n hn0 hn1
    · exact intString_plain r hr0 hr1
    · exact intString_plain c hc0 hc1
    · exact intString_plain lg hlg0 hlg1
    · exact intString_plain cm hcm0 hcm1
    · exact intString_plain ms hms0 hms1
    · exact intString_plain lv hlv0 hlv1
  have hlen9 : (9 : ℕ) ≤ (csvLine row).length := by
    have hge := fieldsPrefix_length_ge [sid.data, ts.data, (toString n).data,
      (toString r).data, (toString c).data, (toString lg).data,
      (toString cm).data, (toString ms).data, (toString lv).data]
      (escapeCSVField (some title)).data
    have hq : (csvLine row).length = (csvLine row).data.length := rfl
    rw [hq, hdata]
    simpa using hge
  obtain ⟨k, hk⟩ : ∃ k, (csvLine row).length + 1 = (k + 1) + 9 :=
    ⟨(csvLine row).length - 9, by omega⟩
  have happly := parseRecord_fieldsPrefix [sid.data, ts.data,
    (toString n).data, (toString r).data, (toString c).data,
    (toString lg).data, (toString cm).data, (toString ms).data,
    (toString lv).data] (escapeCSVField (some title)).data (k + 1) hplain
  have hlenlist : ([sid.data, ts.data, (toString n).data, (toString r).data,
      (toString c).data, (toString lg).data, (toString cm).data,
      (toString ms).data, (toString lv).data] : List (List Char)).length = 9 :=
    rfl
  rw [hlenlist] at happly
  refine ⟨?_, intString_toInt n hn0 hn1, intString_toInt r hr0 hr1,
    intString_toInt c hc0 hc1, intString_toInt lg hlg0 hlg1,
    intString_toInt cm hcm0 hcm1, intString_toInt ms hms0 hms1,
    intString_toInt lv hlv0 hlv1⟩
  show parseRecord ((csvLine row).length + 1) (csvLine row).data = _
  rw [hk, hdata, happly, parseRecord_title title k]
  rfl

/-- Witness for C9 at a concrete stored record whose title contains a comma
(so the quoted path is exercised). -/
theorem csv_roundtrip_lossless_witness :
    parseCSVRecord (csvLine ⟨some "demo_001", some "2025-09-15 10:00:00",
      some 7, some 4, some 9, some 6, some 3, some 5, some 2,
      some "Ready, not yet"⟩) =
      some ["demo_001", "2025-09-15 10:00:00", toString (7 : ℤ),
        toString (4 : ℤ), toString (9 : ℤ), toString (6 : ℤ),
        toString (3 : ℤ), toString (5 : ℤ), toString (2 : ℤ),
        "Ready, not yet"] ∧
    parseIntField (toString (7 : ℤ)) = some 7 ∧
    parseIntField (toString (4 : ℤ)) = some 4 ∧
    parseIntField (toString (9 : ℤ)) = some 9 ∧
    parseIntField (toString (6 : ℤ)) = some 6 ∧
    parseIntField (toString (3 : ℤ)) = some 3 ∧
    parseIntField (toString (5 : ℤ)) = some 5 ∧
    parseIntField (toString (2 : ℤ)) = some 2 :=
  csv_roundtrip_lossless
    ⟨some "demo_001", some "2025-09-15 10:00:00", some 7, some 4, some 9,
      some 6, some 3, some 5, some 2, some "Ready, not yet"⟩
    "demo_001" "2025-09-15 10:00:00" "Ready, not yet" 7 4 9 6 3 5 2
    rfl (by decide) (by decide) rfl (by decide) (by decide)
    rfl (by decide) (by decide) rfl (by decide) (by decide)
    rfl (by decide) (by decide) rfl (by decide) (by decide)
    rfl (by decide) (by decide) rfl (by decide) (by decide)
    rfl (by decide) (by decide) rfl

/-- The value of the request's `consentGiven` field as seen by the strict
`consentGiven === true` check of the chat handler (it defaults to `true`
when absent; anything that is not the boolean `true` fails the check). -/
inductive ConsentVal where
  | vtrue
  | vfalse
  | other
deriving DecidableEq

/-- Outcome of the assessment-JSON extraction in the chat handler: the regex
found no candidate, `JSON.parse` threw (caught, leaving the result null), or
an object parsed with the given truthiness of its `assessment_complete`
field. -/
inductive ParseOutcome where
  | noMatch
  | parseError
  | parsed (assessment_complete : Bool)
deriving DecidableEq

/-- Outcome of the upstream model-API call in the chat handler. -/
inductive ApiOutcome where
  | ok
  | httpError (status : ℕ)
  | threw
deriving DecidableEq

/-- What the chat handler's response and persistence behaviour amount to. -/
structure ChatResult where
  status : ℕ
  insertCalled : Bool
  returnsAiData : Bool
deriving DecidableEq

/-- Embeds the control flow of the chat handler `/api/chat.js`: CORS
preflight, method check, body validation, API-key check, upstream call,
assessment extraction, the conditional `insertAssessment` call guarded by
`assessmentResults && assessmentResults.assessment_complete && consentGiven
=== true` inside its own try/catch, and the unconditional final
`res.status(200).json(data)`.  The insert outcome `dbRun` is `Except.ok`
with the helper's boolean result or `Except.error` when the database code
throws; both are swallowed. -/
def chatHandler (method : String) (messagesValid : Bool)
    (consentGiven : ConsentVal) (hasApiKey : Bool) (api : ApiOutcome)
    (po : ParseOutcome) (dbRun : Except String Bool) : ChatResult :=
  if method = "OPTIONS" then
    { status := 200, insertCalled := false, returnsAiData := false }
  else if method ≠ "POST" then
    { status := 405, insertCalled := false, returnsAiData := false }
  else if messagesValid = false then
    { status := 400, insertCalled := false, returnsAiData := false }
  else if hasApiKey = false then
    { status := 500, insertCalled := false, returnsAiData := false }
  else
    match api with
    | .httpError s =>
      { status := s, insertCalled := false, returnsAiData := false }
    | .threw =>
      { status := 500, insertCalled := false, returnsAiData := false }
    | .ok =>
      let assessmentResults : Option Bool :=
        match po with
        | .parsed complete => some complete
        | _ => none
      let doSave :=
        match assessmentResults with
        | some complete => complete && decide (consentGiven = ConsentVal.vtrue)
        | none => false
      let _saveOutcome : Option Bool :=
        if doSave then
          match dbRun with
          | .ok success => some success
          | .error _ => none
        else none
      { status := 200, insertCalled := doSave, returnsAiData := true }

/-- C6: on a valid POST with the API key configured and a successful
upstream call, the storage insert is attempted exactly when a completed
assessment object was parsed and the consent flag is strictly true; a
malformed or absent assessment payload persists nothing; and whatever the
insert outcome — success, a false result, or a thrown database error — the
handler returns the AI response with HTTP status 200. -/
theorem chat_handler_persistence (consentGiven : ConsentVal)
    (po : ParseOutcome) (dbRun : Except String Bool) :
    ((chatHandler "POST" true consentGiven true ApiOutcome.ok po dbRun).status
      = 200) ∧
    ((chatHandler "POST" true consentGiven true ApiOutcome.ok po
      dbRun).returnsAiData = true) ∧
    ((chatHandler "POST" true consentGiven true ApiOutcome.ok po
      dbRun).insertCalled = true ↔
      (po = ParseOutcome.parsed true ∧ consentGiven = ConsentVal.vtrue)) ∧
    ((po = ParseOutcome.noMatch ∨ po = ParseOutcome.parseError) →
      (chatHandler "POST" true consentGiven true ApiOutcome.ok po
        dbRun).insertCalled = false) := by
  cases po <;> cases consentGiven <;>
    simp [chatHandler]

/-- Witness for C6 at concrete inputs: with consent true and a completed
assessment, the insert is attempted and the handler still returns 200 even
though the database throws; with a malformed payload nothing is persisted. -/
theorem chat_handler_persistence_witness :
    ((chatHandler "POST" true ConsentVal.vtrue true ApiOutcome.ok
        (ParseOutcome.parsed true) (Except.error "db locked")).status = 200 ∧
     (chatHandler "POST" true ConsentVal.vtrue true ApiOutcome.ok
        (ParseOutcome.parsed true) (Except.error "db locked")).insertCalled
        = true) ∧
    (chatHandler "POST" true ConsentVal.vtrue true ApiOutcome.ok
        ParseOutcome.parseError (Except.ok true)).insertCalled = false :=
  ⟨⟨(chat_handler_persistence ConsentVal.vtrue (ParseOutcome.parsed true)
      (Except.error "db locked")).1,
    (chat_handler_persistence ConsentVal.vtrue (ParseOutcome.parsed true)
      (Except.error "db locked")).2.2.1.mpr ⟨rfl, rfl⟩⟩,
   (chat_handler_persistence ConsentVal.vtrue ParseOutcome.parseError
      (Except.ok true)).2.2.2 (Or.inr rfl)⟩

/-- Embeds `insertAssessment` from the database helper module: the shared
`getDb()` is awaited before the try/catch, so its failure propagates; inside
the try, a successful `database.run` (followed by `saveDb()`, which catches
its own errors) yields `true`, and any thrown insert error is caught and
yields `false`. -/
def insertAssessment (getDbRes : Except String Unit)
    (runRes : Except String Unit) : Except String Bool :=
  match getDbRes with
  | .error e => .error e
  | .ok _ =>
    match runRes with
    | .ok _ => .ok true
    | .error _ => .ok false

/-- Embeds `getAllAssessments` from the database helper module: `getDb()` is
awaited before the try/catch; inside the try, an empty result set maps to
the empty array, a nonempty one to its converted rows, and a thrown query
error is caught and maps to the empty array. -/
def getAllAssessments (getDbRes : Except String Unit)
    (execRes : Except String (Option (List DbRow))) :
    Except String (List DbRow) :=
  match getDbRes with
  | .error e => .error e
  | .ok _ =>
    match execRes with
    | .error _ => .ok []
    | .ok none => .ok []
    | .ok (some rows) => .ok rows

/-- C10 as stated is refuted: both storage helpers await the shared database
initialization outside their try/catch, so an initialization failure
rejects past their boundary instead of resolving to a boolean or an
array. -/
theorem storage_helpers_reject_on_init_failure :
    insertAssessment (Except.error "initSqlJs failed") (Except.ok ()) =
      Except.error "initSqlJs failed" ∧
    getAllAssessments (Except.error "initSqlJs failed") (Except.ok none) =
      Except.error "initSqlJs failed" ∧
    insertAssessment (Except.error "initSqlJs failed") (Except.ok ()) ≠
      Except.ok true ∧
    insertAssessment (Except.error "initSqlJs failed") (Except.ok ()) ≠
      Except.ok false ∧
    getAllAssessments (Except.error "initSqlJs failed") (Except.ok none) ≠
      Except.ok [] := by
  refine ⟨rfl, rfl, ?_, ?_, ?_⟩ <;> exact fun h => Except.noConfusion h

/-- C10 amended: once the shared database initialization succeeds,
`insertAssessment` resolves to `true` exactly when the row insert succeeds
and to `false` on any insert error, and `getAllAssessments` resolves to an
array — the empty array both for an empty table and for a thrown query
error, and the converted rows otherwise; neither propagates an error from
inside its try/catch. -/
theorem storage_helpers_after_init (msg : String) (rows : List DbRow) :
    insertAssessment (Except.ok ()) (Except.ok ()) = Except.ok true ∧
    insertAssessment (Except.ok ()) (Except.error msg) = Except.ok false ∧
    getAllAssessments (Except.ok ()) (Except.ok none) = Except.ok [] ∧
    getAllAssessments (Except.ok ()) (Except.error msg) = Except.ok [] ∧
    getAllAssessments (Except.ok ()) (Except.ok (some rows)) =
      Except.ok rows :=
  ⟨rfl, rfl, rfl, rfl, rfl⟩
